import Mathlib

/-!
Shallow embedding of `plugins/router/template/router.go` (package
`templaterouter`): the in-memory router state model, its mutation
operations, the certificate-write policy and the commit pipeline.

Go maps are modelled as `Option` of an association list: `none` is the
nil map. Reading a nil map yields the zero value (here: `none`);
assigning into a nil map is a runtime panic, modelled by the `error`
branch of `Except GoPanic`. Filesystem and process effects are modelled
by an environment of step outcomes plus an explicit event trace.
-/

namespace TemplateRouter

/-- A Go runtime panic reachable in this code: assignment to an entry of
a nil map. -/
inductive GoPanic
  | nilMapAssign
deriving DecidableEq, Repr

/-- Association-list lookup by string key (Go `m[k]` read, non-nil map). -/
def alistLookup {V : Type} : List (String × V) → String → Option V
  | [], _ => none
  | (k', v) :: rest, k => if k' = k then some v else alistLookup rest k

/-- Association-list insert-or-replace (Go `m[k] = v` on a non-nil map). -/
def alistInsert {V : Type} : List (String × V) → String → V → List (String × V)
  | [], k, v => [(k, v)]
  | (k', v') :: rest, k, v =>
    if k' = k then (k, v) :: rest else (k', v') :: alistInsert rest k v

/-- Association-list key removal (Go `delete(m, k)` on a non-nil map). -/
def alistErase {V : Type} : List (String × V) → String → List (String × V)
  | [], _ => []
  | (k', v') :: rest, k =>
    if k' = k then alistErase rest k else (k', v') :: alistErase rest k

/-- A Go map value: `none` is the nil map. -/
abbrev GoMap (V : Type) := Option (List (String × V))

/-- Go map read: reading a nil map yields the zero value (absent). -/
def goMapLookup {V : Type} (m : GoMap V) (k : String) : Option V :=
  match m with
  | none => none
  | some l => alistLookup l k

/-- Go map write: assigning into a nil map panics. -/
def goMapInsert {V : Type} (m : GoMap V) (k : String) (v : V) :
    Except GoPanic (GoMap V) :=
  match m with
  | none => .error GoPanic.nilMapAssign
  | some l => .ok (some (alistInsert l k v))

/-- Go `delete`: deleting from a nil map is a no-op. -/
def goMapErase {V : Type} (m : GoMap V) (k : String) : GoMap V :=
  match m with
  | none => none
  | some l => some (alistErase l k)

/-- Modelled from the spec: the `Certificate` entity (its struct
declaration lives outside the provided source file). Attributes: `ID`,
`Contents` (PEM certificate, may be empty), `PrivateKey` (may be empty
for CA-only entries). -/
structure Certificate where
  ID : String
  Contents : String
  PrivateKey : String
deriving DecidableEq, Repr

/-- Modelled from the spec: the `Endpoint` entity. Attributes `ID`,
`IP`, `Port`. -/
structure Endpoint where
  ID : String
  IP : String
  Port : String
deriving DecidableEq, Repr

/-- Modelled from the spec: the `ServiceAliasConfig` entity — one
routable frontend binding. The zero value has empty `Host`, `Path`,
`TLSTermination` and a nil `Certificates` map, matching Go struct
initialization in `AddRoute`. -/
structure ServiceAliasConfig where
  Host : String
  Path : String
  TLSTermination : String
  Certificates : GoMap Certificate
deriving DecidableEq, Repr

/-- Modelled from the spec: the `ServiceUnit` entity. -/
structure ServiceUnit where
  Name : String
  ServiceAliasConfigs : GoMap ServiceAliasConfig
  EndpointTable : GoMap Endpoint
deriving DecidableEq, Repr

/-- The zero value of `ServiceUnit`, as produced by Go for a lookup miss
in `FindServiceUnit`: empty name, nil maps. -/
def zeroServiceUnit : ServiceUnit :=
  { Name := "", ServiceAliasConfigs := none, EndpointTable := none }

/-- Embedding of `templateRouter.state`: map from ServiceUnit name to ServiceUnit.
It is always initialized (never nil), so it is a plain association
list. -/
abbrev RouterState := List (String × ServiceUnit)

/-- Modelled from the spec: TLS settings of a `routeapi.Route`
(`Termination`, `Certificate`, `Key`, `CACertificate`,
`DestinationCACertificate`), as read by `AddRoute`. -/
structure TLSConfig where
  Termination : String
  Certificate : String
  Key : String
  CACertificate : String
  DestinationCACertificate : String
deriving DecidableEq, Repr

/-- Modelled from the spec: the fields of `routeapi.Route` that
`router.go` reads: `Namespace`, `Name`, `Host`, `Path`, and the
optional `TLS` block (a nil-able pointer in Go). -/
structure Route where
  Namespace : String
  Name : String
  Host : String
  Path : String
  TLS : Option TLSConfig
deriving DecidableEq, Repr

/-- Embedding of `routeapi.TLSTerminationEdge`. -/
def TLSTerminationEdge : String := "edge"

/-- Embedding of `routeapi.TLSTerminationPassthrough`. -/
def TLSTerminationPassthrough : String := "passthrough"

/-- Embedding of `routeapi.TLSTerminationReencrypt`. -/
def TLSTerminationReencrypt : String := "reencrypt"

/-- Embedding of the `caCertPostfix` constant. -/
def caCertPostfix : String := "_ca"

/-- Embedding of the `destCertPostfix` constant. -/
def destCertPostfix : String := "_pod"

/-- Source `hasRequiredEdgeCerts`: at least a host certificate and key are
provided under the key `cfg.Host`. -/
def hasRequiredEdgeCerts (cfg : ServiceAliasConfig) : Bool :=
  match goMapLookup cfg.Certificates cfg.Host with
  | some hostCert =>
    decide (0 < hostCert.Contents.length) && decide (0 < hostCert.PrivateKey.length)
  | none => false

/-- Source `shouldWriteCerts`: true when the route is edge or reencrypt
terminated and carries the required host certificate material. The
receiver's `defaultCertificate` only grades the log severity of the
diagnostic, never the result, so it is not a parameter here. -/
def shouldWriteCerts (cfg : ServiceAliasConfig) : Bool :=
  match cfg.Certificates with
  | none => false
  | some _ =>
    if cfg.TLSTermination = TLSTerminationEdge ∨ cfg.TLSTermination = TLSTerminationReencrypt then
      hasRequiredEdgeCerts cfg
    else
      false

/-- Source `CreateServiceUnit`: insert a unit with empty (non-nil) tables,
overwriting any prior unit under the same id. -/
def CreateServiceUnit (st : RouterState) (id : String) : RouterState :=
  alistInsert st id
    { Name := id, ServiceAliasConfigs := some [], EndpointTable := some [] }

/-- Source `FindServiceUnit`: map lookup; a miss yields the zero value and
`false`. -/
def FindServiceUnit (st : RouterState) (id : String) : ServiceUnit × Bool :=
  match alistLookup st id with
  | some u => (u, true)
  | none => (zeroServiceUnit, false)

/-- Source `DeleteServiceUnit`: remove the unit; no-op when absent. -/
def DeleteServiceUnit (st : RouterState) (id : String) : RouterState :=
  alistErase st id

/-- Source `DeleteEndpoints`: reset the unit's endpoint table to a fresh empty
map; no-op when the unit is absent. -/
def DeleteEndpoints (st : RouterState) (id : String) : RouterState :=
  match alistLookup st id with
  | none => st
  | some u => alistInsert st id { u with EndpointTable := some [] }

/-- Source `routeKey`: `Namespace-Name`, joined with a literal dash. -/
def routeKey (route : Route) : String :=
  route.Namespace ++ "-" ++ route.Name

/-- The `ServiceAliasConfig` value built by `AddRoute` from a route:
host and path always; when TLS is present with a non-empty termination,
the termination is copied, and unless it is passthrough a fresh
certificate map is populated with the host cert and, when supplied,
the CA cert (`Host ++ "_ca"`) and destination CA cert
(`Host ++ "_pod"`). -/
def buildAliasConfig (route : Route) : ServiceAliasConfig :=
  let config0 : ServiceAliasConfig :=
    { Host := route.Host, Path := route.Path, TLSTermination := "", Certificates := none }
  match route.TLS with
  | none => config0
  | some tls =>
    if 0 < tls.Termination.length then
      if tls.Termination = TLSTerminationPassthrough then
        { config0 with TLSTermination := tls.Termination }
      else
        let cert : Certificate :=
          { ID := route.Host, Contents := tls.Certificate, PrivateKey := tls.Key }
        let certs1 := alistInsert [] cert.ID cert
        let certs2 :=
          if 0 < tls.CACertificate.length then
            alistInsert certs1 (route.Host ++ caCertPostfix)
              { ID := route.Host ++ caCertPostfix, Contents := tls.CACertificate,
                PrivateKey := "" }
          else certs1
        let certs3 :=
          if 0 < tls.DestinationCACertificate.length then
            alistInsert certs2 (route.Host ++ destCertPostfix)
              { ID := route.Host ++ destCertPostfix,
                Contents := tls.DestinationCACertificate, PrivateKey := "" }
          else certs2
        { config0 with TLSTermination := tls.Termination, Certificates := some certs3 }
    else config0

/-- Source `AddRoute`: look the unit up (zero value on a miss), build the alias
config, and write it under the derived route key. The write
`frontend.ServiceAliasConfigs[backendKey] = config` panics when the
unit was absent (nil alias map); otherwise the unit is stored back. -/
def AddRoute (st : RouterState) (id : String) (route : Route) :
    Except GoPanic RouterState :=
  let frontend := (FindServiceUnit st id).1
  let backendKey := routeKey route
  let config := buildAliasConfig route
  match goMapInsert frontend.ServiceAliasConfigs backendKey config with
  | .error p => .error p
  | .ok m => .ok (alistInsert st id { frontend with ServiceAliasConfigs := m })

/-- Source `RemoveRoute`: no-op when the unit is absent; otherwise delete the
alias at the derived route key (Go mutates the stored unit's map in
place; value semantics store the updated unit back). -/
def RemoveRoute (st : RouterState) (id : String) (route : Route) : RouterState :=
  match alistLookup st id with
  | none => st
  | some u =>
    alistInsert st id
      { u with ServiceAliasConfigs := goMapErase u.ServiceAliasConfigs (routeKey route) }

/-- The loop body of `AddEndpoints`: insert each endpoint only when its
ID is not already present. Inserting into a nil table panics. -/
def addEndpointsLoop (table : GoMap Endpoint) : List Endpoint → Except GoPanic (GoMap Endpoint)
  | [] => .ok table
  | ep :: rest =>
    match goMapLookup table ep.ID with
    | some _ => addEndpointsLoop table rest
    | none =>
      match goMapInsert table ep.ID { ID := ep.ID, IP := ep.IP, Port := ep.Port } with
      | .error p => .error p
      | .ok t => addEndpointsLoop t rest

/-- Source `AddEndpoints`: look the unit up (zero value on a miss), add each
endpoint whose ID is new, and store the unit back. -/
def AddEndpoints (st : RouterState) (id : String) (endpoints : List Endpoint) :
    Except GoPanic RouterState :=
  let frontend := (FindServiceUnit st id).1
  match addEndpointsLoop frontend.EndpointTable endpoints with
  | .error p => .error p
  | .ok t => .ok (alistInsert st id { frontend with EndpointTable := t })

/-- The possible outcomes of `ioutil.ReadFile` on the persisted-state
file, as distinguished (or not) by `readState`. -/
inductive ReadError
  | fileAbsent
  | otherFailure (msg : String)
deriving DecidableEq, Repr

/-- Source `readState`: read the route file; on ANY read error the state is
reset to an empty map and nil is returned (the `// XXX: rework`
branch); on success the bytes are unmarshalled, and unmarshal errors
propagate. `unmarshal` stands for `json.Unmarshal` into the state. -/
def readState (readResult : Except ReadError String)
    (unmarshal : String → Except String RouterState) : Except String RouterState :=
  match readResult with
  | .error _ => .ok []
  | .ok dat => unmarshal dat

/-- One externally visible effect of the commit pipeline, in the order
performed. -/
inductive CommitEvent
  | persistState
  | certWrite (cfgHost : String)
  | render (path : String)
  | reload
deriving DecidableEq, Repr

/-- Outcomes of the effectful steps `Commit` runs: the state write, each
certificate write, each template create+execute, and the reload script
(captured combined output and optional non-zero exit code). `none`
means the step succeeds; `some msg` is the error message. -/
structure CommitEnv where
  persistResult : Option String
  certWriteResult : ServiceAliasConfig → Option String
  renderResult : String → Option String
  reloadOutput : String
  reloadExit : Option Nat

/-- The message of the error returned by `exec.Cmd.CombinedOutput` for a
non-zero exit: Go's `(*exec.ExitError).Error()` is `exit status N`; it
does not embed the captured output. -/
def reloadErrMsg (code : Nat) : String := "exit status " ++ toString code

/-- Source `reloadRouter`: run the reload script; the combined output is only
logged on failure — the returned error is the bare exec error. -/
def reloadRouter (env : CommitEnv) : Option String :=
  match env.reloadExit with
  | none => none
  | some code => some (reloadErrMsg code)

/-- Source `writeCertificates` over one unit's alias configs: for each config,
write its certificates when `shouldWriteCerts` holds; stop at the first
failing write. Returns the write events performed and the first
error. -/
def writeCertsUnit (env : CommitEnv) : List (String × ServiceAliasConfig) →
    List CommitEvent × Option String
  | [] => ([], none)
  | (_, cfg) :: rest =>
    if shouldWriteCerts cfg then
      match env.certWriteResult cfg with
      | some e => ([CommitEvent.certWrite cfg.Host], some e)
      | none =>
        (CommitEvent.certWrite cfg.Host :: (writeCertsUnit env rest).1,
         (writeCertsUnit env rest).2)
    else writeCertsUnit env rest

/-- The certificate phase of `writeConfig`: every alias config of every
service unit, failing fast. A nil alias map contributes nothing (Go
range over a nil map is empty). -/
def writeCertsAll (env : CommitEnv) : RouterState → List CommitEvent × Option String
  | [] => ([], none)
  | (_, u) :: rest =>
    let entries := match u.ServiceAliasConfigs with | none => [] | some l => l
    match (writeCertsUnit env entries).2 with
    | some e => ((writeCertsUnit env entries).1, some e)
    | none =>
      ((writeCertsUnit env entries).1 ++ (writeCertsAll env rest).1,
       (writeCertsAll env rest).2)

/-- The template phase of `writeConfig`: create and execute each
registered template into its output path, failing fast. -/
def renderAll (env : CommitEnv) : List String → List CommitEvent × Option String
  | [] => ([], none)
  | p :: rest =>
    match env.renderResult p with
    | some e => ([CommitEvent.render p], some e)
    | none => (CommitEvent.render p :: (renderAll env rest).1, (renderAll env rest).2)

/-- Source `writeConfig`: certificates for every alias config first, then every
template; the first error aborts. -/
def writeConfig (env : CommitEnv) (st : RouterState) (templates : List String) :
    List CommitEvent × Option String :=
  match (writeCertsAll env st).2 with
  | some e => ((writeCertsAll env st).1, some e)
  | none =>
    ((writeCertsAll env st).1 ++ (renderAll env templates).1,
     (renderAll env templates).2)

/-- Source `Commit`: persist state, then `writeConfig` (certificates then
templates), then reload; each step's failure aborts the rest and is
returned immediately. -/
def Commit (env : CommitEnv) (st : RouterState) (templates : List String) :
    List CommitEvent × Option String :=
  match env.persistResult with
  | some e => ([CommitEvent.persistState], some e)
  | none =>
    match (writeConfig env st templates).2 with
    | some e => (CommitEvent.persistState :: (writeConfig env st templates).1, some e)
    | none =>
      (CommitEvent.persistState :: ((writeConfig env st templates).1 ++ [CommitEvent.reload]),
       reloadRouter env)

/-- Event classifier: certificate-write events. -/
def isCertEvent : CommitEvent → Bool
  | CommitEvent.certWrite _ => true
  | _ => false

/-- Event classifier: template-render events. -/
def isRenderEvent : CommitEvent → Bool
  | CommitEvent.render _ => true
  | _ => false

/-- Naive substring test on the underlying character lists, used to
state whether one string occurs inside another. -/
def listStartsWith : List Char → List Char → Bool
  | [], _ => true
  | _ :: _, [] => false
  | a :: as, b :: bs => a = b && listStartsWith as bs

/-- Helper `listContainsSub needle hay`: `needle` occurs contiguously in
`hay`. -/
def listContainsSub (needle : List Char) : List Char → Bool
  | [] => listStartsWith needle []
  | h :: t => listStartsWith needle (h :: t) || listContainsSub needle t

/-- Helper `strContainsSub hay needle`: `needle` is a contiguous substring of
`hay`. -/
def strContainsSub (hay needle : String) : Bool :=
  listContainsSub needle.data hay.data

/-! ### Helper lemmas -/

theorem string_pos_length_iff (s : String) : 0 < s.length ↔ s ≠ "" := by
  cases s with
  | mk d =>
    simp only [String.length_mk]
    constructor
    · intro h he
      have hd : d = [] := by simpa using congrArg String.data he
      subst hd
      simp at h
    · intro h
      cases d with
      | nil => exact absurd rfl h
      | cons a t => simp

theorem alistLookup_insert_self {V : Type} (l : List (String × V)) (k : String) (v : V) :
    alistLookup (alistInsert l k v) k = some v := by
  induction l with
  | nil => simp [alistInsert, alistLookup]
  | cons h t ih =>
    obtain ⟨k', v'⟩ := h
    by_cases hk : k' = k
    · subst hk
      simp [alistInsert, alistLookup]
    · simp [alistInsert, alistLookup, hk, ih]

theorem alistLookup_insert_ne {V : Type} {k k' : String} (l : List (String × V)) (v : V)
    (h : k ≠ k') : alistLookup (alistInsert l k v) k' = alistLookup l k' := by
  induction l with
  | nil => simp [alistInsert, alistLookup, h]
  | cons hd t ih =>
    obtain ⟨a, b⟩ := hd
    by_cases ha : a = k
    · subst ha
      simp [alistInsert, alistLookup, h]
    · simp [alistInsert, alistLookup, ha, ih]

theorem alistInsert_insert_same {V : Type} (l : List (String × V)) (k : String) (v w : V) :
    alistInsert (alistInsert l k v) k w = alistInsert l k w := by
  induction l with
  | nil => simp [alistInsert]
  | cons hd t ih =>
    obtain ⟨a, b⟩ := hd
    by_cases ha : a = k
    · subst ha
      simp [alistInsert]
    · simp [alistInsert, ha, ih]

theorem alistInsert_lookup_self {V : Type} {l : List (String × V)} {k : String} {v : V}
    (h : alistLookup l k = some v) : alistInsert l k v = l := by
  induction l with
  | nil => simp [alistLookup] at h
  | cons hd t ih =>
    obtain ⟨a, b⟩ := hd
    by_cases ha : a = k
    · subst ha
      simp [alistLookup] at h
      simp [alistInsert, h]
    · simp [alistLookup, ha] at h
      simp [alistInsert, ha, ih h]

theorem alistErase_insert_of_none {V : Type} {l : List (String × V)} {k : String} (v : V)
    (h : alistLookup l k = none) : alistErase (alistInsert l k v) k = l := by
  induction l with
  | nil => simp [alistInsert, alistErase]
  | cons hd t ih =>
    obtain ⟨a, b⟩ := hd
    by_cases ha : a = k
    · subst ha
      simp [alistLookup] at h
    · simp [alistLookup, ha] at h
      simp [alistInsert, alistErase, ha, ih h]

/-! ### Claim theorems -/

/-- C1: `shouldWriteCerts cfg` is true if and only if `cfg.TLSTermination`
is edge or reencrypt, `cfg.Certificates` is non-nil, and the certificate
stored under key `cfg.Host` exists with non-empty `Contents` and
non-empty `PrivateKey`; in all other cases (none/passthrough
termination, nil map, missing or incomplete host certificate) it is
false. -/
theorem shouldWriteCerts_spec (cfg : ServiceAliasConfig) :
    shouldWriteCerts cfg = true ↔
      ((cfg.TLSTermination = TLSTerminationEdge ∨ cfg.TLSTermination = TLSTerminationReencrypt) ∧
       cfg.Certificates ≠ none ∧
       ∃ c, goMapLookup cfg.Certificates cfg.Host = some c ∧
         c.Contents ≠ "" ∧ c.PrivateKey ≠ "") := by
  cases hm : cfg.Certificates with
  | none => simp [shouldWriteCerts, hm]
  | some l =>
    by_cases ht : cfg.TLSTermination = TLSTerminationEdge ∨ cfg.TLSTermination = TLSTerminationReencrypt
    · simp only [shouldWriteCerts, hm, ht, if_true, ne_eq, reduceCtorEq, not_false_iff,
        true_and, iff_true_intro ht]
      cases hc : alistLookup l cfg.Host with
      | none => simp [hasRequiredEdgeCerts, hm, goMapLookup, hc]
      | some c => simp [hasRequiredEdgeCerts, hm, goMapLookup, hc, string_pos_length_iff]
    · simp [shouldWriteCerts, hm, ht]

/-- C3 counterexample: `AddRoute` on an id absent from the state does
not complete normally with the state unchanged — the assignment into the
transient zero-value unit's nil `ServiceAliasConfigs` map panics, so the
call never returns a state at all. -/
theorem AddRoute_missing_unit_cex :
    AddRoute ([] : RouterState) "svc"
        { Namespace := "ns", Name := "r", Host := "h", Path := "", TLS := none } =
      Except.error GoPanic.nilMapAssign ∧
    ∀ st' : RouterState,
      AddRoute ([] : RouterState) "svc"
          { Namespace := "ns", Name := "r", Host := "h", Path := "", TLS := none } ≠
        Except.ok st' :=
  ⟨rfl, fun _ h => Except.noConfusion h⟩

/-- C3 (amended): for every id absent from the RouterState, `AddRoute`
panics on the nil-map assignment (the error branch) before storing
anything, so no entry is added and no entry changes — but the call
faults rather than completing as a silent no-op. -/
theorem AddRoute_missing_unit (st : RouterState) (id : String) (route : Route)
    (h : alistLookup st id = none) :
    AddRoute st id route = Except.error GoPanic.nilMapAssign := by
  simp [AddRoute, FindServiceUnit, h, zeroServiceUnit, goMapInsert]

/-- C3 witness: concrete instance of the amended claim. -/
theorem AddRoute_missing_unit_witness :
    AddRoute ([] : RouterState) "other"
        { Namespace := "n", Name := "m", Host := "x", Path := "", TLS := none } =
      Except.error GoPanic.nilMapAssign :=
  AddRoute_missing_unit [] "other"
    { Namespace := "n", Name := "m", Host := "x", Path := "", TLS := none } rfl

/-- C5: for every route whose TLS termination is passthrough, `AddRoute`
(on an existing unit) stores an alias config with
`TLSTermination = passthrough` and a nil `Certificates` map, whatever
the TLS certificate fields contain. -/
theorem AddRoute_passthrough (st : RouterState) (id : String) (u : ServiceUnit)
    (m : List (String × ServiceAliasConfig)) (route : Route) (tls : TLSConfig)
    (hu : alistLookup st id = some u) (hm : u.ServiceAliasConfigs = some m)
    (htls : route.TLS = some tls) (hterm : tls.Termination = TLSTerminationPassthrough) :
    AddRoute st id route = Except.ok (alistInsert st id
      { u with ServiceAliasConfigs := some (alistInsert m (routeKey route)
          { Host := route.Host, Path := route.Path,
            TLSTermination := TLSTerminationPassthrough, Certificates := none }) }) := by
  have hlen : 0 < TLSTerminationPassthrough.length := by decide
  simp [AddRoute, FindServiceUnit, hu, buildAliasConfig, htls, hterm, hlen, goMapInsert, hm]

/-- C5 witness: a passthrough route with every TLS certificate field
populated still yields a nil `Certificates` map. -/
theorem AddRoute_passthrough_witness :
    AddRoute (CreateServiceUnit [] "svc") "svc"
        { Namespace := "ns", Name := "r", Host := "h", Path := "p",
          TLS := some { Termination := "passthrough", Certificate := "C", Key := "K",
                        CACertificate := "CA", DestinationCACertificate := "D" } } =
      Except.ok (alistInsert (CreateServiceUnit [] "svc") "svc"
        { Name := "svc",
          ServiceAliasConfigs := some (alistInsert [] "ns-r"
            { Host := "h", Path := "p", TLSTermination := TLSTerminationPassthrough,
              Certificates := none }),
          EndpointTable := some [] }) :=
  AddRoute_passthrough (CreateServiceUnit [] "svc") "svc"
    { Name := "svc", ServiceAliasConfigs := some [], EndpointTable := some [] } []
    { Namespace := "ns", Name := "r", Host := "h", Path := "p",
      TLS := some { Termination := "passthrough", Certificate := "C", Key := "K",
                    CACertificate := "CA", DestinationCACertificate := "D" } }
    { Termination := "passthrough", Certificate := "C", Key := "K",
      CACertificate := "CA", DestinationCACertificate := "D" }
    rfl rfl rfl rfl

/-- C10: calling `AddEndpoints` for an id with no ServiceUnit is unsafe:
for any non-empty endpoint list the insertion hits the transient
zero-value unit's nil `EndpointTable` and panics (error branch), and for
the empty list it stores the zero-value ServiceUnit (empty name, nil
tables) under that id. -/
theorem AddEndpoints_missing_unit (st : RouterState) (id : String)
    (h : alistLookup st id = none) :
    (∀ (ep : Endpoint) (rest : List Endpoint),
        AddEndpoints st id (ep :: rest) = Except.error GoPanic.nilMapAssign) ∧
    AddEndpoints st id [] = Except.ok (alistInsert st id zeroServiceUnit) := by
  constructor
  · intro ep rest
    simp [AddEndpoints, FindServiceUnit, h, zeroServiceUnit, addEndpointsLoop,
      goMapLookup, goMapInsert]
  · simp [AddEndpoints, FindServiceUnit, h, addEndpointsLoop, zeroServiceUnit]

/-- C10 witness: both branches at a concrete missing id. -/
theorem AddEndpoints_missing_unit_witness :
    AddEndpoints ([] : RouterState) "u" [{ ID := "e", IP := "1.2.3.4", Port := "80" }] =
      Except.error GoPanic.nilMapAssign ∧
    AddEndpoints ([] : RouterState) "u" [] =
      Except.ok (alistInsert [] "u" zeroServiceUnit) :=
  ⟨(AddEndpoints_missing_unit [] "u" rfl).1 { ID := "e", IP := "1.2.3.4", Port := "80" } [],
   (AddEndpoints_missing_unit [] "u" rfl).2⟩

theorem addEndpointsLoop_preserves (eps : List Endpoint) (t : List (String × Endpoint))
    (eid : String) (e : Endpoint) (he : alistLookup t eid = some e) :
    ∃ t', addEndpointsLoop (some t) eps = Except.ok (some t') ∧ alistLookup t' eid = some e := by
  induction eps generalizing t with
  | nil => exact ⟨t, rfl, he⟩
  | cons ep rest ih =>
    cases hl : alistLookup t ep.ID with
    | some x =>
      obtain ⟨t', h1, h2⟩ := ih t he
      refine ⟨t', ?_, h2⟩
      simpa [addEndpointsLoop, goMapLookup, hl] using h1
    | none =>
      have hne : ep.ID ≠ eid := by
        intro hh
        rw [hh, he] at hl
        cases hl
      have he' : alistLookup (alistInsert t ep.ID { ID := ep.ID, IP := ep.IP, Port := ep.Port })
          eid = some e := by
        rw [alistLookup_insert_ne _ _ hne]
        exact he
      obtain ⟨t', h1, h2⟩ := ih _ he'
      refine ⟨t', ?_, h2⟩
      simpa [addEndpointsLoop, goMapLookup, hl, goMapInsert] using h1

/-- C4: endpoints are first-write-wins by ID. For an existing unit,
(i) an endpoint already stored under an ID survives any later
`AddEndpoints` call unchanged, and (ii) the first call that inserts an
absent ID stores exactly the supplied `(ID, IP, Port)` value. -/
theorem AddEndpoints_first_write_wins :
    (∀ (st : RouterState) (id : String) (u : ServiceUnit) (t : List (String × Endpoint))
        (eid : String) (e : Endpoint) (eps : List Endpoint),
        alistLookup st id = some u → u.EndpointTable = some t →
        alistLookup t eid = some e →
        ∃ t', AddEndpoints st id eps =
            Except.ok (alistInsert st id { u with EndpointTable := some t' }) ∧
          alistLookup t' eid = some e) ∧
    (∀ (st : RouterState) (id : String) (u : ServiceUnit) (t : List (String × Endpoint))
        (ep : Endpoint) (rest : List Endpoint),
        alistLookup st id = some u → u.EndpointTable = some t →
        alistLookup t ep.ID = none →
        ∃ t', AddEndpoints st id (ep :: rest) =
            Except.ok (alistInsert st id { u with EndpointTable := some t' }) ∧
          alistLookup t' ep.ID = some { ID := ep.ID, IP := ep.IP, Port := ep.Port }) := by
  constructor
  · intro st id u t eid e eps hu ht he
    obtain ⟨t', h1, h2⟩ := addEndpointsLoop_preserves eps t eid e he
    refine ⟨t', ?_, h2⟩
    simp [AddEndpoints, FindServiceUnit, hu, ht, h1]
  · intro st id u t ep rest hu ht hnone
    have he' : alistLookup (alistInsert t ep.ID { ID := ep.ID, IP := ep.IP, Port := ep.Port })
        ep.ID = some { ID := ep.ID, IP := ep.IP, Port := ep.Port } :=
      alistLookup_insert_self t ep.ID _
    obtain ⟨t', h1, h2⟩ := addEndpointsLoop_preserves rest _ ep.ID _ he'
    refine ⟨t', ?_, h2⟩
    simp [AddEndpoints, FindServiceUnit, hu, ht, addEndpointsLoop, goMapLookup, hnone,
      goMapInsert, h1]

/-- C4 witness: re-adding endpoint id `e1` with a different address does
not overwrite the stored endpoint. -/
theorem AddEndpoints_first_write_wins_witness :
    ∃ t', AddEndpoints
        [("s", { Name := "s", ServiceAliasConfigs := some [],
                 EndpointTable := some [("e1", { ID := "e1", IP := "1.1.1.1", Port := "80" })] })]
        "s" [{ ID := "e1", IP := "9.9.9.9", Port := "99" }] =
      Except.ok (alistInsert
        [("s", { Name := "s", ServiceAliasConfigs := some [],
                 EndpointTable := some [("e1", { ID := "e1", IP := "1.1.1.1", Port := "80" })] })]
        "s" { Name := "s", ServiceAliasConfigs := some [], EndpointTable := some t' }) ∧
      alistLookup t' "e1" = some { ID := "e1", IP := "1.1.1.1", Port := "80" } :=
  AddEndpoints_first_write_wins.1
    [("s", { Name := "s", ServiceAliasConfigs := some [],
             EndpointTable := some [("e1", { ID := "e1", IP := "1.1.1.1", Port := "80" })] })]
    "s"
    { Name := "s", ServiceAliasConfigs := some [],
      EndpointTable := some [("e1", { ID := "e1", IP := "1.1.1.1", Port := "80" })] }
    [("e1", { ID := "e1", IP := "1.1.1.1", Port := "80" })]
    "e1" { ID := "e1", IP := "1.1.1.1", Port := "80" }
    [{ ID := "e1", IP := "9.9.9.9", Port := "99" }]
    rfl rfl rfl

/-- C8 counterexample: when the derived route key already has an alias,
`AddRoute` then `RemoveRoute` does NOT restore the unit's alias map —
the pre-existing alias under `ns-r` is replaced and then deleted, so the
final map is empty where the original had one entry. -/
theorem AddRoute_RemoveRoute_cex :
    AddRoute
        [("s", { Name := "s",
                 ServiceAliasConfigs := some [("ns-r",
                   { Host := "h1", Path := "", TLSTermination := "", Certificates := none })],
                 EndpointTable := some [] })]
        "s" { Namespace := "ns", Name := "r", Host := "h2", Path := "p2", TLS := none } =
      Except.ok
        [("s", { Name := "s",
                 ServiceAliasConfigs := some [("ns-r",
                   { Host := "h2", Path := "p2", TLSTermination := "", Certificates := none })],
                 EndpointTable := some [] })] ∧
    RemoveRoute
        [("s", { Name := "s",
                 ServiceAliasConfigs := some [("ns-r",
                   { Host := "h2", Path := "p2", TLSTermination := "", Certificates := none })],
                 EndpointTable := some [] })]
        "s" { Namespace := "ns", Name := "r", Host := "h2", Path := "p2", TLS := none } =
      [("s", { Name := "s", ServiceAliasConfigs := some [], EndpointTable := some [] })] ∧
    (some [] : GoMap ServiceAliasConfig) ≠
      some [("ns-r", { Host := "h1", Path := "", TLSTermination := "", Certificates := none })] :=
  ⟨rfl, rfl, by decide⟩

/-- C8 (amended): `AddRoute` immediately followed by `RemoveRoute` with
the same identifiers restores the whole state — hence the unit's alias
map — provided the derived route key was NOT already bound in the
unit's alias map; if it was, the pre-existing alias is lost. -/
theorem AddRoute_RemoveRoute_roundtrip (st : RouterState) (id : String) (u : ServiceUnit)
    (m : List (String × ServiceAliasConfig)) (route : Route)
    (hu : alistLookup st id = some u) (hm : u.ServiceAliasConfigs = some m)
    (habs : alistLookup m (routeKey route) = none) :
    ∃ st1, AddRoute st id route = Except.ok st1 ∧ RemoveRoute st1 id route = st := by
  refine ⟨alistInsert st id { u with ServiceAliasConfigs := some (alistInsert m (routeKey route) (buildAliasConfig route)) }, ?_, ?_⟩
  · simp [AddRoute, FindServiceUnit, hu, hm, goMapInsert]
  · have hlk := alistLookup_insert_self st id { u with ServiceAliasConfigs := some (alistInsert m (routeKey route) (buildAliasConfig route)) }
    simp [RemoveRoute, hlk, goMapErase,
      alistErase_insert_of_none (buildAliasConfig route) habs, alistInsert_insert_same]
    rw [← hm]
    exact alistInsert_lookup_self hu

/-- C8 witness: round trip at a fresh unit (route key absent). -/
theorem AddRoute_RemoveRoute_roundtrip_witness :
    ∃ st1, AddRoute (CreateServiceUnit [] "s") "s"
        { Namespace := "ns", Name := "r", Host := "h", Path := "", TLS := none } =
      Except.ok st1 ∧
    RemoveRoute st1 "s"
        { Namespace := "ns", Name := "r", Host := "h", Path := "", TLS := none } =
      CreateServiceUnit [] "s" :=
  AddRoute_RemoveRoute_roundtrip (CreateServiceUnit [] "s") "s"
    { Name := "s", ServiceAliasConfigs := some [], EndpointTable := some [] } []
    { Namespace := "ns", Name := "r", Host := "h", Path := "", TLS := none }
    rfl rfl rfl

theorem dashSplit (a : List Char) (b : List Char) (c : List Char) (d : List Char)
    (ha : ¬ '-' ∈ a) (hc : ¬ '-' ∈ c)
    (h : a ++ '-' :: b = c ++ '-' :: d) : a = c ∧ b = d := by
  induction a generalizing c with
  | nil =>
    cases c with
    | nil => simpa using h
    | cons y ys =>
      simp only [List.nil_append, List.cons_append, List.cons.injEq] at h
      exact absurd (by simp [← h.1]) hc
  | cons x xs ih =>
    cases c with
    | nil =>
      simp only [List.nil_append, List.cons_append, List.cons.injEq] at h
      exact absurd (by simp [h.1]) ha
    | cons y ys =>
      simp only [List.cons_append, List.cons.injEq] at h
      have ha' : ¬ '-' ∈ xs := fun hh => ha (List.mem_cons_of_mem _ hh)
      have hc' : ¬ '-' ∈ ys := fun hh => hc (List.mem_cons_of_mem _ hh)
      obtain ⟨h1, h2⟩ := ih ys ha' hc' h.2
      exact ⟨by rw [h.1, h1], h2⟩

theorem routeKey_data (r : Route) :
    (routeKey r).data = r.Namespace.data ++ '-' :: r.Name.data := by
  simp [routeKey, String.data_append]

/-- C9 counterexample: `routeKey` is not injective over (Namespace,
Name) pairs, because the dash separator CAN occur inside the
identifiers: (`a-b`, `c`) and (`a`, `b-c`) yield the same key
`a-b-c` while the pairs differ. -/
theorem routeKey_not_injective_cex :
    routeKey { Namespace := "a-b", Name := "c", Host := "", Path := "", TLS := none } =
      routeKey { Namespace := "a", Name := "b-c", Host := "", Path := "", TLS := none } ∧
    ¬(("a-b" : String) = "a" ∧ ("c" : String) = "b-c") := by
  constructor
  · decide
  · decide

/-- C9 (amended): `routeKey` is injective only on routes whose Namespace
contains no dash: if neither namespace contains `-`, equal keys force
equal namespaces and names. (The code joins with `-`, which can occur
in either identifier, so full injectivity fails.) -/
theorem routeKey_injective_on_dashfree (r1 r2 : Route)
    (h1 : ¬ '-' ∈ r1.Namespace.data) (h2 : ¬ '-' ∈ r2.Namespace.data)
    (hk : routeKey r1 = routeKey r2) :
    r1.Namespace = r2.Namespace ∧ r1.Name = r2.Name := by
  have hd := congrArg String.data hk
  rw [routeKey_data, routeKey_data] at hd
  obtain ⟨hns, hnm⟩ := dashSplit _ _ _ _ h1 h2 hd
  exact ⟨String.ext hns, String.ext hnm⟩

/-- C9 witness: concrete dash-free namespaces. -/
theorem routeKey_injective_on_dashfree_witness :
    (¬ '-' ∈ ("alpha" : String).data) ∧
    (("alpha" : String) = "alpha" ∧ ("beta" : String) = "beta") :=
  ⟨by decide,
   routeKey_injective_on_dashfree
     { Namespace := "alpha", Name := "beta", Host := "h1", Path := "", TLS := none }
     { Namespace := "alpha", Name := "beta", Host := "h2", Path := "", TLS := none }
     (by decide) (by decide) rfl⟩

theorem writeCertsUnit_events (env : CommitEnv) (l : List (String × ServiceAliasConfig)) :
    ∀ ev ∈ (writeCertsUnit env l).1, isCertEvent ev = true := by
  induction l with
  | nil => simp [writeCertsUnit]
  | cons hd t ih =>
    obtain ⟨k, cfg⟩ := hd
    intro ev hev
    by_cases hs : shouldWriteCerts cfg
    · cases hw : env.certWriteResult cfg with
      | some e =>
        simp [writeCertsUnit, hs, hw] at hev
        simp [hev, isCertEvent]
      | none =>
        simp [writeCertsUnit, hs, hw] at hev
        rcases hev with h | h
        · simp [h, isCertEvent]
        · exact ih ev h
    · simp [writeCertsUnit, hs] at hev
      exact ih ev hev

theorem writeCertsAll_events (env : CommitEnv) (st : RouterState) :
    ∀ ev ∈ (writeCertsAll env st).1, isCertEvent ev = true := by
  induction st with
  | nil => simp [writeCertsAll]
  | cons hd rest ih =>
    obtain ⟨k, u⟩ := hd
    intro ev hev
    cases hr : (writeCertsUnit env
        (match u.ServiceAliasConfigs with | none => [] | some l => l)).2 with
    | some e =>
      simp [writeCertsAll, hr] at hev
      exact writeCertsUnit_events env _ ev hev
    | none =>
      simp [writeCertsAll, hr] at hev
      rcases hev with h | h
      · exact writeCertsUnit_events env _ ev h
      · exact ih ev h

theorem renderAll_events (env : CommitEnv) (ts : List String) :
    ∀ ev ∈ (renderAll env ts).1, isRenderEvent ev = true := by
  induction ts with
  | nil => simp [renderAll]
  | cons p rest ih =>
    intro ev hev
    cases hr : env.renderResult p with
    | some e =>
      simp [renderAll, hr] at hev
      simp [hev, isRenderEvent]
    | none =>
      simp [renderAll, hr] at hev
      rcases hev with h | h
      · simp [h, isRenderEvent]
      · exact ih ev h

theorem renderAll_complete (env : CommitEnv) (ts : List String)
    (h : (renderAll env ts).2 = none) :
    (renderAll env ts).1 = ts.map CommitEvent.render := by
  induction ts with
  | nil => simp [renderAll]
  | cons p rest ih =>
    cases hr : env.renderResult p with
    | some e => simp [renderAll, hr] at h
    | none =>
      simp [renderAll, hr] at h ⊢
      exact ih h

/-- C2: `Commit` runs persist → certificate writes (every alias config
of every unit) → template renders → reload, fail-fast: a persist
failure yields only the persist event and that error; a certificate
write failure stops before any render or reload (the trace holds only
cert-write events after persist); a render failure stops before reload;
on full success the reload runs last, after one render per registered
template. The first error is returned as the result. -/
theorem Commit_ordered_fail_fast (env : CommitEnv) (st : RouterState) (ts : List String) :
    (∀ e, env.persistResult = some e →
        Commit env st ts = ([CommitEvent.persistState], some e)) ∧
    (env.persistResult = none → ∀ e, (writeCertsAll env st).2 = some e →
        Commit env st ts = (CommitEvent.persistState :: (writeCertsAll env st).1, some e) ∧
        ∀ ev ∈ (writeCertsAll env st).1, isCertEvent ev = true) ∧
    (env.persistResult = none → (writeCertsAll env st).2 = none →
        ∀ e, (renderAll env ts).2 = some e →
        Commit env st ts =
          (CommitEvent.persistState :: ((writeCertsAll env st).1 ++ (renderAll env ts).1),
           some e) ∧
        (∀ ev ∈ (writeCertsAll env st).1, isCertEvent ev = true) ∧
        (∀ ev ∈ (renderAll env ts).1, isRenderEvent ev = true)) ∧
    (env.persistResult = none → (writeCertsAll env st).2 = none →
        (renderAll env ts).2 = none →
        Commit env st ts =
          (CommitEvent.persistState ::
            (((writeCertsAll env st).1 ++ ts.map CommitEvent.render) ++ [CommitEvent.reload]),
           reloadRouter env)) := by
  refine ⟨?_, ?_, ?_, ?_⟩
  · intro e hp
    simp [Commit, hp]
  · intro hp e hc
    refine ⟨?_, writeCertsAll_events env st⟩
    simp [Commit, hp, writeConfig, hc]
  · intro hp hc e hr
    refine ⟨?_, writeCertsAll_events env st, renderAll_events env ts⟩
    simp [Commit, hp, writeConfig, hc, hr]
  · intro hp hc hr
    simp [Commit, hp, writeConfig, hc, hr, renderAll_complete env ts hr]

/-- C2 witness: a failing state persist aborts the whole commit with
that error and no certificate, render or reload effect. -/
theorem Commit_ordered_fail_fast_witness :
    Commit { persistResult := some "disk full", certWriteResult := fun _ => none,
             renderResult := fun _ => none, reloadOutput := "", reloadExit := none } [] [] =
      ([CommitEvent.persistState], some "disk full") :=
  (Commit_ordered_fail_fast
    { persistResult := some "disk full", certWriteResult := fun _ => none,
      renderResult := fun _ => none, reloadOutput := "", reloadExit := none } [] []).1
    "disk full" rfl

/-- C6 counterexample: a read failure that is NOT "file absent" (here a
permission error) is also downgraded to the empty state with no error —
`readState` returns `.ok []`, never an error, for every read failure,
contradicting the claim that only absence is downgraded. -/
theorem readState_other_failures_cex :
    readState (Except.error (ReadError.otherFailure "permission denied"))
        (fun _ => Except.error "unmarshal never runs") = Except.ok [] ∧
    ∀ e, readState (Except.error (ReadError.otherFailure "permission denied"))
        (fun _ => Except.error "unmarshal never runs") ≠ Except.error e :=
  ⟨rfl, fun _ h => Except.noConfusion h⟩

/-- C6 (amended): `readState` downgrades EVERY read failure — absent
file or any other I/O error — to the empty state with no error; only
parse (unmarshal) failures of successfully read bytes are surfaced. -/
theorem readState_spec :
    (∀ (e : ReadError) (um : String → Except String RouterState),
        readState (Except.error e) um = Except.ok []) ∧
    (∀ (dat : String) (um : String → Except String RouterState),
        readState (Except.ok dat) um = um dat) :=
  ⟨fun _ _ => rfl, fun _ _ => rfl⟩

/-- C7 (amended): when all earlier steps succeed and the reload command
exits non-zero, `Commit` returns the bare exec error (`exit status N` —
the captured combined output is only logged, not part of the returned
error), and the trace shows the state persisted and every registered
template rendered before the reload, with nothing rolled back. -/
theorem Commit_reload_failure (env : CommitEnv) (st : RouterState) (ts : List String)
    (hp : env.persistResult = none) (hc : (writeCertsAll env st).2 = none)
    (hr : (renderAll env ts).2 = none) (code : Nat) (hx : env.reloadExit = some code) :
    Commit env st ts =
      (CommitEvent.persistState ::
        (((writeCertsAll env st).1 ++ ts.map CommitEvent.render) ++ [CommitEvent.reload]),
       some (reloadErrMsg code)) := by
  simp [Commit, hp, writeConfig, hc, hr, renderAll_complete env ts hr, reloadRouter, hx]

/-- C7 witness: concrete commit whose reload exits 1. -/
theorem Commit_reload_failure_witness :
    Commit { persistResult := none, certWriteResult := fun _ => none,
             renderResult := fun _ => none, reloadOutput := "reload failed: boom",
             reloadExit := some 1 } [] ["cfg"] =
      ([CommitEvent.persistState, CommitEvent.render "cfg", CommitEvent.reload],
       some (reloadErrMsg 1)) :=
  Commit_reload_failure
    { persistResult := none, certWriteResult := fun _ => none,
      renderResult := fun _ => none, reloadOutput := "reload failed: boom",
      reloadExit := some 1 } [] ["cfg"] rfl rfl rfl 1 rfl

/-- C7 counterexample: the error `Commit` returns for a non-zero reload
exit is `exit status 1`, which does not contain the captured combined
output (`reload failed: boom`) — the output is only logged. -/
theorem Commit_reload_error_no_output_cex :
    Commit { persistResult := none, certWriteResult := fun _ => none,
             renderResult := fun _ => none, reloadOutput := "reload failed: boom",
             reloadExit := some 1 } [] ["cfg"] =
      ([CommitEvent.persistState, CommitEvent.render "cfg", CommitEvent.reload],
       some "exit status 1") ∧
    strContainsSub "exit status 1" "reload failed: boom" = false :=
  ⟨rfl, rfl⟩

end TemplateRouter
